import Mathlib

/-!
Verification of the pyfinder event follow-up scheduler and data-merge layer.

This file gives a shallow embedding, in Lean, of the parts of the pyfinder
source that the checked claims talk about:

* `utils/station_merger.py` (StationMerger.merge, _make_key),
* `utils/dataformatter.py` (FinDerFormatterFromRawList.format and the RRSM
  peak-motion channel selection),
* `services/querypolicy.py` (RRSMQueryPolicy.should_query),
* `services/database.py` (ThreadSafeDB) and `services/eventtracker.py`
  (EventTracker) as far as the claims need them,
* `finderexec.py` (_is_live_mode_on and the FinDer argv construction).

Numbers that Python holds as floats are embedded as rationals; Python
`round` (banker's rounding) and `int` truncation are modelled explicitly on
rationals.  Dynamically typed SQLite column values are embedded as `PyVal`.
Fallible Python code is embedded with `Except PyErr`.
-/

/-- Dynamically typed Python/SQLite value: None, str, int, float or bool. -/
inductive PyVal where
  | none : PyVal
  | str (s : String) : PyVal
  | int (n : ℤ) : PyVal
  | real (q : ℚ) : PyVal
  | bool (b : Bool) : PyVal
deriving DecidableEq, Repr

/-- Python truthiness of a `PyVal` (None and empty/zero values are falsy). -/
def pyTruthy : PyVal → Bool
  | .none => false
  | .str s => decide (s ≠ "")
  | .int n => decide (n ≠ 0)
  | .real q => decide (q ≠ 0)
  | .bool b => b

/-- The Python exception kinds raised by the embedded code. -/
inductive PyErr where
  | typeError (msg : String) : PyErr
  | valueError (msg : String) : PyErr
  | programmingError (msg : String) : PyErr
deriving DecidableEq, Repr

/-- Round a rational to the nearest integer, ties to even: the rounding used
by Python `round` (here idealized from binary floats to rationals). -/
def roundHalfEven (q : ℚ) : ℤ :=
  let f : ℤ := ⌊q⌋
  if q - f < 1/2 then f
  else if 1/2 < q - f then f + 1
  else if f % 2 = 0 then f else f + 1

/-- Python `round(x, ndigits)` on the rational model. -/
def pyRound (ndigits : ℕ) (x : ℚ) : ℚ :=
  (roundHalfEven (x * (10 : ℚ) ^ ndigits) : ℚ) / (10 : ℚ) ^ ndigits

/-- Python `int(x)`: truncation toward zero. -/
def ratTrunc (q : ℚ) : ℤ :=
  if 0 ≤ q then ⌊q⌋ else -⌊-q⌋

/-! ## Station merger (`utils/station_merger.py`) -/

/-- Record `RawStationMeasurement` from `utils/station_merger.py`: the normalized
per-provider station record (lat, lon, codes, pga in cm/s², timestamp,
source tag). -/
structure RawStationMeasurement where
  latitude : ℚ
  longitude : ℚ
  network : String
  station : String
  location : String
  channel : String
  pga : ℚ
  timestamp : ℚ
  source : String
deriving DecidableEq, Repr

/-- The value of a merge key built by `StationMerger._make_key`: either the
dotted SNCL string (all four codes truthy) or the rounded-coordinate string.
The two string shapes are kept apart as constructors. -/
inductive StationKey where
  | sncl (network station location channel : String) : StationKey
  | coord (lat lon : ℚ) : StationKey
deriving DecidableEq, Repr

/-- Function `StationMerger._make_key`: SNCL key when all four codes are truthy
(nonempty), else the `round(lat,4)_round(lon,4)` coordinate key. -/
def make_key (sta : RawStationMeasurement) : StationKey :=
  if pyTruthy (.str sta.network) && pyTruthy (.str sta.station) &&
     pyTruthy (.str sta.location) && pyTruthy (.str sta.channel) then
    .sncl sta.network sta.station sta.location sta.channel
  else
    .coord (pyRound 4 sta.latitude) (pyRound 4 sta.longitude)

/-- Python dict assignment `merged[key] = sta` on an insertion-ordered
association list: overwriting an existing key keeps its position, a new key
is appended at the end. -/
def dictSet : List (StationKey × RawStationMeasurement) → StationKey →
    RawStationMeasurement → List (StationKey × RawStationMeasurement)
  | [], k, v => [(k, v)]
  | p :: rest, k, v => if p.1 = k then (k, v) :: rest else p :: dictSet rest k v

/-- One of the two indexing loops of `StationMerger.merge`: insert every
station of `l` into the dict, keyed by `_make_key`. -/
def insertAll (m : List (StationKey × RawStationMeasurement))
    (l : List RawStationMeasurement) : List (StationKey × RawStationMeasurement) :=
  l.foldl (fun m s => dictSet m (make_key s) s) m

/-- Dict lookup on the association list. -/
def dictGet : List (StationKey × RawStationMeasurement) → StationKey →
    Option RawStationMeasurement
  | [], _ => none
  | p :: rest, k => if p.1 = k then some p.2 else dictGet rest k

/-- The keys of the dict, in insertion order. -/
def dictKeys (m : List (StationKey × RawStationMeasurement)) : List StationKey :=
  m.map Prod.fst

/-- Well-formedness of the dicts built by `merge`: keys are distinct and every
entry is stored under the key `_make_key` computes from it. -/
def DictWf (m : List (StationKey × RawStationMeasurement)) : Prop :=
  (dictKeys m).Nodup ∧ ∀ p ∈ m, p.1 = make_key p.2

/-- Python `sorted(..., key=lambda x: x["pga"], reverse=True)` sorts by
descending pga and is stable.  A stable sort is extensionally determined by
the comparator, so the embedding uses Mathlib's stable insertion sort with
this relation. -/
def pgaDesc (a b : RawStationMeasurement) : Prop := b.pga ≤ a.pga

instance : DecidableRel pgaDesc :=
  fun a b => (inferInstance : Decidable (b.pga ≤ a.pga))

instance : IsTotal RawStationMeasurement pgaDesc :=
  ⟨fun a b => le_total b.pga a.pga⟩

instance : IsTrans RawStationMeasurement pgaDesc :=
  ⟨fun _ _ _ hab hbc => le_trans hbc hab⟩

/-- Function `StationMerger.merge`: index the RRSM list first, overwrite with the ESM
list (ESM priority on key conflicts), then sort the dict values by descending
pga with Python's stable sort. -/
def StationMerger.merge (esm_data rrsm_data : List RawStationMeasurement) :
    List RawStationMeasurement :=
  List.insertionSort pgaDesc
    ((insertAll (insertAll [] rrsm_data) esm_data).map Prod.snd)

theorem mem_dictSet_weak {m : List (StationKey × RawStationMeasurement)}
    {k : StationKey} {v : RawStationMeasurement}
    {p : StationKey × RawStationMeasurement} (hp : p ∈ dictSet m k v) :
    p = (k, v) ∨ p ∈ m := by
  induction m with
  | nil =>
    simp only [dictSet, List.mem_singleton] at hp
    exact Or.inl hp
  | cons q rest ih =>
    simp only [dictSet] at hp
    by_cases hq : q.1 = k
    · rw [if_pos hq] at hp
      rcases List.mem_cons.mp hp with h | h
      · exact Or.inl h
      · exact Or.inr (List.mem_cons_of_mem q h)
    · rw [if_neg hq] at hp
      rcases List.mem_cons.mp hp with h | h
      · exact Or.inr (by rw [h]; exact List.mem_cons_self q rest)
      · rcases ih h with h2 | h2
        · exact Or.inl h2
        · exact Or.inr (List.mem_cons_of_mem q h2)

theorem dictKeys_dictSet (m : List (StationKey × RawStationMeasurement))
    (k : StationKey) (v : RawStationMeasurement) :
    dictKeys (dictSet m k v) =
      if k ∈ dictKeys m then dictKeys m else dictKeys m ++ [k] := by
  induction m with
  | nil => simp [dictSet, dictKeys]
  | cons q rest ih =>
    by_cases hq : q.1 = k
    · simp [dictSet, dictKeys, hq]
    · have hne : ¬ k = q.1 := fun h => hq h.symm
      simp only [dictSet, if_neg hq, dictKeys, List.map_cons, List.mem_cons]
      simp only [dictKeys] at ih
      rw [ih]
      by_cases hk : k ∈ rest.map Prod.fst
      · simp [hk, hne]
      · simp [hk, hne]

/-- The empty dict is well formed. -/
theorem dictWf_nil : DictWf [] := ⟨by simp [dictKeys], by simp⟩

theorem dictWf_dictSet {m : List (StationKey × RawStationMeasurement)}
    (h : DictWf m) (s : RawStationMeasurement) :
    DictWf (dictSet m (make_key s) s) := by
  constructor
  · rw [dictKeys_dictSet]
    by_cases hk : make_key s ∈ dictKeys m
    · simpa [hk] using h.1
    · simp only [hk, if_false]
      rw [List.nodup_append]
      refine ⟨h.1, List.nodup_singleton _, ?_⟩
      intro a ha hb
      simp only [List.mem_singleton] at hb
      exact hk (hb ▸ ha)
  · intro p hp
    rcases mem_dictSet_weak hp with h2 | h2
    · rw [h2]
    · exact h.2 p h2

theorem dictWf_insertAll {m : List (StationKey × RawStationMeasurement)}
    (h : DictWf m) (l : List RawStationMeasurement) :
    DictWf (insertAll m l) := by
  induction l generalizing m with
  | nil => exact h
  | cons a rest ih => exact ih (dictWf_dictSet h a)

theorem dictGet_dictSet_self (m : List (StationKey × RawStationMeasurement))
    (k : StationKey) (v : RawStationMeasurement) :
    dictGet (dictSet m k v) k = some v := by
  induction m with
  | nil => simp [dictSet, dictGet]
  | cons q rest ih =>
    by_cases hq : q.1 = k
    · simp [dictSet, dictGet, hq]
    · simp [dictSet, dictGet, hq, ih]

theorem dictGet_dictSet_ne {m : List (StationKey × RawStationMeasurement)}
    {k k2 : StationKey} (hne : k2 ≠ k) (v : RawStationMeasurement) :
    dictGet (dictSet m k v) k2 = dictGet m k2 := by
  induction m with
  | nil =>
    simp only [dictSet, dictGet]
    rw [if_neg (fun h : k = k2 => hne h.symm)]
  | cons q rest ih =>
    by_cases hq : q.1 = k
    · simp only [dictSet, if_pos hq, dictGet]
      rw [if_neg (fun h : k = k2 => hne h.symm),
        if_neg (fun h : q.1 = k2 => hne (h.symm.trans hq))]
    · simp only [dictSet, if_neg hq, dictGet, ih]

theorem dictGet_insertAll_of_not_mem
    {l : List RawStationMeasurement} {k : StationKey}
    (h : ∀ s ∈ l, make_key s ≠ k)
    (m : List (StationKey × RawStationMeasurement)) :
    dictGet (insertAll m l) k = dictGet m k := by
  induction l generalizing m with
  | nil => rfl
  | cons a rest ih =>
    have step : insertAll m (a :: rest) = insertAll (dictSet m (make_key a) a) rest := rfl
    have hne : k ≠ make_key a := fun h2 => h a (List.mem_cons_self a rest) h2.symm
    rw [step, ih (fun s hs => h s (List.mem_cons_of_mem a hs)),
      dictGet_dictSet_ne hne]

theorem dictGet_insertAll_of_unique
    {l : List RawStationMeasurement} {e : RawStationMeasurement} {k : StationKey}
    (he : e ∈ l) (hk : make_key e = k)
    (hu : ∀ s ∈ l, make_key s = k → s = e)
    (m : List (StationKey × RawStationMeasurement)) :
    dictGet (insertAll m l) k = some e := by
  induction l generalizing m with
  | nil => cases he
  | cons a rest ih =>
    by_cases hrest : ∃ s ∈ rest, make_key s = k
    · obtain ⟨s, hs, hks⟩ := hrest
      have hse : s = e := hu s (List.mem_cons_of_mem a hs) hks
      exact ih (hse ▸ hs) (fun s2 hs2 hk2 => hu s2 (List.mem_cons_of_mem a hs2) hk2) _
    · have hea : e = a := by
        rcases List.mem_cons.mp he with h | h
        · exact h
        · exact absurd ⟨e, h, hk⟩ hrest
      subst hea
      have step : insertAll m (e :: rest) = insertAll (dictSet m (make_key e) e) rest := rfl
      rw [step, dictGet_insertAll_of_not_mem
        (fun s hs h2 => hrest ⟨s, hs, h2⟩) _, hk, dictGet_dictSet_self]

theorem dictGet_eq_none_of_not_mem_keys
    {m : List (StationKey × RawStationMeasurement)} {k : StationKey}
    (h : k ∉ dictKeys m) : dictGet m k = none := by
  induction m with
  | nil => rfl
  | cons q rest ih =>
    simp only [dictKeys, List.map_cons, List.mem_cons, not_or] at h
    have hne : ¬ q.1 = k := fun h2 => h.1 h2.symm
    simp only [dictGet, if_neg hne]
    exact ih (by simpa [dictKeys] using h.2)

theorem filter_map_snd_eq_toList
    {m : List (StationKey × RawStationMeasurement)} (hwf : DictWf m)
    (k : StationKey) :
    (m.map Prod.snd).filter (fun s => decide (make_key s = k)) =
      (dictGet m k).toList := by
  induction m with
  | nil => rfl
  | cons p rest ih =>
    have hkey : p.1 = make_key p.2 := hwf.2 p (List.mem_cons_self p rest)
    have hnodup : p.1 ∉ dictKeys rest := by
      have := hwf.1
      simp only [dictKeys, List.map_cons, List.nodup_cons] at this
      simpa [dictKeys] using this.1
    have hrest : DictWf rest :=
      ⟨by
        have := hwf.1
        simp only [dictKeys, List.map_cons, List.nodup_cons] at this
        simpa [dictKeys] using this.2,
       fun q hq => hwf.2 q (List.mem_cons_of_mem p hq)⟩
    by_cases hk : make_key p.2 = k
    · have hgetrest : dictGet rest k = none :=
        dictGet_eq_none_of_not_mem_keys (by rwa [hkey, hk] at hnodup)
      have hfilter := ih hrest
      rw [hgetrest] at hfilter
      simp only [List.map_cons, List.filter_cons, hk, dictGet,
        if_pos (hkey.trans hk)]
      simpa [Option.toList] using hfilter
    · have hne : ¬ p.1 = k := fun h => hk (by rw [← hkey]; exact h)
      simp only [List.map_cons, List.filter_cons, hk, dictGet, if_neg hne]
      simpa using ih hrest

/-- C4. ESM-priority merge: when the same key occurs in both input lists
(ESM key-unique so that "the ESM record" is well defined), the single merged
record under that key is the ESM record, and the merged output is sorted by
descending PGA. -/
theorem merge_esm_priority (esm rrsm : List RawStationMeasurement)
    (e : RawStationMeasurement) (k : StationKey)
    (he : e ∈ esm) (hk : make_key e = k)
    (hu : ∀ s ∈ esm, make_key s = k → s = e)
    (_hr : ∃ r ∈ rrsm, make_key r = k) :
    (StationMerger.merge esm rrsm).filter (fun s => decide (make_key s = k)) = [e]
    ∧ List.Sorted pgaDesc (StationMerger.merge esm rrsm) := by
  constructor
  · have hwf : DictWf (insertAll (insertAll [] rrsm) esm) :=
      dictWf_insertAll (dictWf_insertAll dictWf_nil rrsm) esm
    have hget : dictGet (insertAll (insertAll [] rrsm) esm) k = some e :=
      dictGet_insertAll_of_unique he hk hu _
    have hfil := filter_map_snd_eq_toList hwf k
    rw [hget] at hfil
    have hperm : (StationMerger.merge esm rrsm).filter (fun s => decide (make_key s = k))
        |>.Perm (((insertAll (insertAll [] rrsm) esm).map Prod.snd).filter
          (fun s => decide (make_key s = k))) :=
      List.Perm.filter _ (List.perm_insertionSort pgaDesc _)
    rw [hfil] at hperm
    exact List.perm_singleton.mp hperm
  · exact List.sorted_insertionSort pgaDesc _

/-- Witness data for the merge theorems: the S1 scenario station as reported
by ESM (pga 7.5) and by RRSM (pga 5.0) under the same SNCL. -/
def esmSampleStation : RawStationMeasurement :=
  ⟨40, 28, "IT", "ACC", "00", "HNZ", 15/2, 0, "ESM"⟩

/-- The RRSM-side sample record with the same SNCL key. -/
def rrsmSampleStation : RawStationMeasurement :=
  ⟨40, 28, "IT", "ACC", "00", "HNZ", 5, 0, "RRSM"⟩

/-- Witness for C4 at the concrete S1 inputs. -/
theorem merge_esm_priority_witness :
    (StationMerger.merge [esmSampleStation] [rrsmSampleStation]).filter
        (fun s => decide (make_key s = make_key esmSampleStation)) = [esmSampleStation]
    ∧ List.Sorted pgaDesc (StationMerger.merge [esmSampleStation] [rrsmSampleStation]) :=
  merge_esm_priority [esmSampleStation] [rrsmSampleStation] esmSampleStation
    (make_key esmSampleStation)
    (List.mem_singleton.mpr rfl) rfl
    (fun s hs _ => List.mem_singleton.mp hs)
    ⟨rrsmSampleStation, List.mem_singleton.mpr rfl, by decide⟩

theorem dictSet_append_of_not_mem
    {m : List (StationKey × RawStationMeasurement)} {k : StationKey}
    (h : k ∉ dictKeys m) (v : RawStationMeasurement) :
    dictSet m k v = m ++ [(k, v)] := by
  induction m with
  | nil => rfl
  | cons q rest ih =>
    simp only [dictKeys, List.map_cons, List.mem_cons, not_or] at h
    have hne : ¬ q.1 = k := fun h2 => h.1 h2.symm
    simp only [dictSet, if_neg hne, List.cons_append]
    rw [ih (by simpa [dictKeys] using h.2)]

theorem insertAll_fresh {l : List RawStationMeasurement}
    (hn : (l.map make_key).Nodup)
    {m : List (StationKey × RawStationMeasurement)}
    (hd : ∀ s ∈ l, make_key s ∉ dictKeys m) :
    insertAll m l = m ++ l.map (fun s => (make_key s, s)) := by
  induction l generalizing m with
  | nil => simp [insertAll]
  | cons a rest ih =>
    simp only [List.map_cons, List.nodup_cons] at hn
    have step : insertAll m (a :: rest) = insertAll (dictSet m (make_key a) a) rest := rfl
    have hd2 : ∀ s ∈ rest, make_key s ∉ dictKeys (m ++ [(make_key a, a)]) := by
      intro s hs
      simp only [dictKeys, List.map_append, List.mem_append, List.map_cons,
        List.map_nil, List.mem_singleton, not_or]
      refine ⟨hd s (List.mem_cons_of_mem a hs), ?_⟩
      exact fun h => hn.1 (h ▸ List.mem_map_of_mem make_key hs)
    rw [step, dictSet_append_of_not_mem (hd a (List.mem_cons_self a rest)) a,
      ih hn.2 hd2]
    simp [List.append_assoc]

theorem merge_keys_nodup (esm rrsm : List RawStationMeasurement) :
    ((StationMerger.merge esm rrsm).map make_key).Nodup := by
  have hwf : DictWf (insertAll (insertAll [] rrsm) esm) :=
    dictWf_insertAll (dictWf_insertAll dictWf_nil rrsm) esm
  have hmap : ((insertAll (insertAll [] rrsm) esm).map Prod.snd).map make_key =
      dictKeys (insertAll (insertAll [] rrsm) esm) := by
    rw [List.map_map, dictKeys]
    exact List.map_congr_left (fun p hp => (hwf.2 p hp).symm)
  have hperm : ((StationMerger.merge esm rrsm).map make_key).Perm
      (((insertAll (insertAll [] rrsm) esm).map Prod.snd).map make_key) :=
    List.Perm.map make_key (List.perm_insertionSort pgaDesc _)
  rw [hmap] at hperm
  exact hperm.nodup_iff.mpr hwf.1

/-- C5. Merge idempotence: merging the merged output with an empty second
input reproduces the merged output, element for element and in order. -/
theorem merge_idempotent (esm rrsm : List RawStationMeasurement) :
    StationMerger.merge (StationMerger.merge esm rrsm) [] =
      StationMerger.merge esm rrsm := by
  have hfresh : insertAll [] (StationMerger.merge esm rrsm) =
      (StationMerger.merge esm rrsm).map (fun s => (make_key s, s)) := by
    have := insertAll_fresh (merge_keys_nodup esm rrsm)
      (m := []) (fun s _ => by simp [dictKeys])
    simpa using this
  have hvals : (insertAll [] (StationMerger.merge esm rrsm)).map Prod.snd =
      StationMerger.merge esm rrsm := by
    rw [hfresh, List.map_map]
    have hcomp : (Prod.snd ∘ fun s : RawStationMeasurement => (make_key s, s)) = id := rfl
    rw [hcomp, List.map_id]
  show List.insertionSort pgaDesc
      ((insertAll (insertAll [] []) (StationMerger.merge esm rrsm)).map Prod.snd) = _
  have hnil : insertAll ([] : List (StationKey × RawStationMeasurement)) ([] : List RawStationMeasurement) = [] := rfl
  rw [hnil, hvals]
  exact List.Sorted.insertionSort_eq (List.sorted_insertionSort pgaDesc _)

/-! ## FinDer formatter from merged raw list (`utils/dataformatter.py`) -/

/-- One entry of the channel manifest (`finderutils.FinderChannelList` as
filled by `add_finder_channel`). -/
structure FinderChannel where
  latitude : ℚ
  longitude : ℚ
  pga : ℚ
  sncl : String
  is_artificial : Bool
deriving DecidableEq, Repr

/-- One line of the FinDer `data_0` input blob, kept structured: the header
comment line, a live-mode station line, or an offline-mode station line. -/
inductive DataLine where
  | header (epoch : ℤ) : DataLine
  | live (lat lon : ℚ) (sncl : String) (epoch : ℤ) (pga : ℚ) : DataLine
  | offline (lat lon : ℚ) (pga : ℚ) : DataLine
deriving DecidableEq, Repr

/-- Python `str.strip(".")`: drop leading and trailing dots. -/
def stripDots (s : String) : String :=
  String.mk (((s.toList.dropWhile (fun c => c = '.')).reverse.dropWhile
    (fun c => c = '.')).reverse)

/-- The dedup key used by `FinDerFormatterFromRawList.format` (the unstripped
dotted SNCL built from the raw fields). -/
def rawSnclKey (s : RawStationMeasurement) : String :=
  s.network ++ "." ++ s.station ++ "." ++ s.location ++ "." ++ s.channel

/-- The `seen_keys` loop of `FinDerFormatterFromRawList.format`: keep the
first station for every distinct raw SNCL key. -/
def dedupByKey : List RawStationMeasurement → List String → List RawStationMeasurement
  | [], _ => []
  | s :: rest, seen =>
    let key := rawSnclKey s
    if seen.contains key then dedupByKey rest seen
    else s :: dedupByKey rest (key :: seen)

/-- The PGA value carried for one station: raw pga in live mode, `log10` of it
otherwise.  `log10` is a parameter of the embedding (a transcendental float
function in the source). -/
def stationPga (log10 : ℚ → ℚ) (isLive : Bool) (s : RawStationMeasurement) : ℚ :=
  if isLive = false then log10 s.pga else s.pga

/-- The display SNCL of a station (all four codes stripped of dots, joined). -/
def snclOf (s : RawStationMeasurement) : String :=
  stripDots s.network ++ "." ++ stripDots s.station ++ "." ++ stripDots s.location
    ++ "." ++ stripDots s.channel

/-- The `data_0` line appended for one station. -/
def stationLine (log10 : ℚ → ℚ) (isLive : Bool) (s : RawStationMeasurement) : DataLine :=
  let pga := stationPga log10 isLive s
  if isLive then
    .live s.latitude s.longitude (snclOf s) (ratTrunc s.timestamp) (pyRound 3 pga)
  else
    .offline s.latitude s.longitude (pyRound 3 pga)

/-- The manifest entry appended for one station. -/
def stationChannel (log10 : ℚ → ℚ) (isLive : Bool) (s : RawStationMeasurement) : FinderChannel :=
  ⟨s.latitude, s.longitude, stationPga log10 isLive s, snclOf s, false⟩

/-- Maximum `np.max` over a nonempty list (the `[]` case is unreachable in the
embedding and set to `0`; `np.max([])` raises, which `format` models). -/
def pyMax : List ℚ → ℚ
  | [] => 0
  | p :: rest => rest.foldl max p

/-- Function `FinDerFormatterFromRawList.format`: dedup stations by raw SNCL key,
emit the header and one line per station, then insert the synthetic epicenter
row at index 1 with PGA `max(predicted, max_observed * 1.2)` and append the
artificial manifest entry.  `predict` stands for the (absent from the
snapshot) `Calculator.predict_PGA_from_magnitude(magnitude, event_depth,
log_scale)`; it and `log10` are parameters of the embedding. -/
def FinDerFormatterFromRawList.format (predict : ℚ → ℚ → Bool → ℚ) (log10 : ℚ → ℚ)
    (isLive : Bool) (event_lat event_lon event_depth_km event_mag event_time_epoch : ℚ)
    (station_list : List RawStationMeasurement) :
    Except PyErr (List DataLine × List FinderChannel) :=
  match dedupByKey station_list [] with
  | [] => .error (.valueError "zero-size array to reduction operation maximum")
  | v :: vs =>
    let valid := v :: vs
    let pgas := valid.map (stationPga log10 isLive)
    let data_lines := DataLine.header (ratTrunc event_time_epoch)
      :: valid.map (stationLine log10 isLive)
    let finder_channels := valid.map (stationChannel log10 isLive)
    let max_obs_pga := pyMax pgas
    let fake_pga := max (predict event_mag event_depth_km (!isLive))
      (max_obs_pga * (12/10))
    let fake_line := if isLive then
        DataLine.live event_lat event_lon "XX.NONE.00.HNZ" (ratTrunc event_time_epoch)
          (pyRound 3 fake_pga)
      else
        DataLine.offline event_lat event_lon (pyRound 3 fake_pga)
    .ok (data_lines.insertIdx 1 fake_line,
      finder_channels ++ [⟨event_lat, event_lon, fake_pga, "XX.NONE.00.HNZ", true⟩])

/-- The maximum observed (possibly log-transformed) PGA over the deduped
station list: `np.max(pgas)` in `format`. -/
def maxObserved (log10 : ℚ → ℚ) (isLive : Bool)
    (station_list : List RawStationMeasurement) : ℚ :=
  pyMax ((dedupByKey station_list []).map (stationPga log10 isLive))

/-- The synthetic epicenter PGA of `format`:
`max(predicted_PGA(magnitude, depth), max_observed_PGA * 1.2)`. -/
def syntheticPGA (predict : ℚ → ℚ → Bool → ℚ) (log10 : ℚ → ℚ) (isLive : Bool)
    (event_depth_km event_mag : ℚ) (station_list : List RawStationMeasurement) : ℚ :=
  max (predict event_mag event_depth_km (!isLive))
    (maxObserved log10 isLive station_list * (12/10))

theorem dedupByKey_cons_of_ne_nil {l : List RawStationMeasurement} (h : l ≠ []) :
    ∃ v vs, dedupByKey l [] = v :: vs := by
  cases l with
  | nil => exact absurd rfl h
  | cons s rest => exact ⟨s, dedupByKey rest [rawSnclKey s], rfl⟩

/-- C3. For a nonempty merged station list, the engine-input blob has the
synthetic epicenter row as its second line (right after the header), its SNCL
is `XX.NONE.00.HNZ`, and its PGA is
`max(predicted_PGA(magnitude, depth), 1.2 * max observed PGA)` (on the line
after the documented 3-decimal rounding, in the manifest exactly). -/
theorem formatter_synthetic_epicenter (predict : ℚ → ℚ → Bool → ℚ) (log10 : ℚ → ℚ)
    (isLive : Bool) (event_lat event_lon event_depth_km event_mag event_time_epoch : ℚ)
    (station_list : List RawStationMeasurement) (h : station_list ≠ []) :
    ∃ blob chans,
      FinDerFormatterFromRawList.format predict log10 isLive event_lat event_lon
          event_depth_km event_mag event_time_epoch station_list = .ok (blob, chans)
      ∧ blob[0]? = some (.header (ratTrunc event_time_epoch))
      ∧ blob[1]? = some (if isLive then
            DataLine.live event_lat event_lon "XX.NONE.00.HNZ" (ratTrunc event_time_epoch)
              (pyRound 3 (syntheticPGA predict log10 isLive event_depth_km event_mag station_list))
          else
            DataLine.offline event_lat event_lon
              (pyRound 3 (syntheticPGA predict log10 isLive event_depth_km event_mag station_list)))
      ∧ chans.getLast? = some ⟨event_lat, event_lon,
            syntheticPGA predict log10 isLive event_depth_km event_mag station_list,
            "XX.NONE.00.HNZ", true⟩ := by
  obtain ⟨v, vs, hvalid⟩ := dedupByKey_cons_of_ne_nil h
  have hsyn : syntheticPGA predict log10 isLive event_depth_km event_mag station_list
      = max (predict event_mag event_depth_km (!isLive))
          (pyMax ((v :: vs).map (stationPga log10 isLive)) * (12/10)) := by
    unfold syntheticPGA maxObserved
    rw [hvalid]
  refine ⟨(DataLine.header (ratTrunc event_time_epoch)
      :: (v :: vs).map (stationLine log10 isLive)).insertIdx 1
        (if isLive then
          DataLine.live event_lat event_lon "XX.NONE.00.HNZ" (ratTrunc event_time_epoch)
            (pyRound 3 (syntheticPGA predict log10 isLive event_depth_km event_mag station_list))
        else
          DataLine.offline event_lat event_lon
            (pyRound 3 (syntheticPGA predict log10 isLive event_depth_km event_mag station_list))),
    (v :: vs).map (stationChannel log10 isLive) ++
      [⟨event_lat, event_lon,
        syntheticPGA predict log10 isLive event_depth_km event_mag station_list,
        "XX.NONE.00.HNZ", true⟩], ?_, ?_, ?_, ?_⟩
  · unfold FinDerFormatterFromRawList.format
    rw [hvalid, hsyn]
  · rfl
  · cases isLive <;> rfl
  · rw [List.getLast?_concat]

/-- Witness for C3 at a concrete live-mode input. -/
theorem formatter_synthetic_epicenter_witness :
    [esmSampleStation] ≠ ([] : List RawStationMeasurement)
    ∧ ∃ blob chans,
      FinDerFormatterFromRawList.format (fun _ _ _ => 10) (fun q => q) true
          40 28 10 (13/2) 1000 [esmSampleStation] = .ok (blob, chans)
      ∧ blob[0]? = some (.header (ratTrunc 1000))
      ∧ blob[1]? = some (if true then
            DataLine.live 40 28 "XX.NONE.00.HNZ" (ratTrunc 1000)
              (pyRound 3 (syntheticPGA (fun _ _ _ => 10) (fun q => q) true 10 (13/2) [esmSampleStation]))
          else
            DataLine.offline 40 28
              (pyRound 3 (syntheticPGA (fun _ _ _ => 10) (fun q => q) true 10 (13/2) [esmSampleStation])))
      ∧ chans.getLast? = some ⟨40, 28,
            syntheticPGA (fun _ _ _ => 10) (fun q => q) true 10 (13/2) [esmSampleStation],
            "XX.NONE.00.HNZ", true⟩ :=
  ⟨by simp,
   formatter_synthetic_epicenter (fun _ _ _ => 10) (fun q => q) true
     40 28 10 (13/2) 1000 [esmSampleStation] (by simp)⟩

/-! ## RRSM peak-motion channel selection (`utils/dataformatter.py`) -/

/-- Python `abs` / `np.abs` on the rational model. -/
def pyAbs (q : ℚ) : ℚ := if q < 0 then -q else q

/-- Constant `RRSM_PEAKMOTION_PGA_MIN` (m/s/s) from `utils/dataformatter.py`. -/
def RRSM_PEAKMOTION_PGA_MIN : ℚ := 1/100000

/-- Constant `RRSM_PEAKMOTION_PGA_MAX = 4*9.806` (m/s/s) from `utils/dataformatter.py`. -/
def RRSM_PEAKMOTION_PGA_MAX : ℚ := 4 * (9806/1000)

/-- One channel of an RRSM peak-motion station (code and PGA). -/
structure PeakMotionChannel where
  channel_code : String
  channel_pga : ℚ
deriving DecidableEq, Repr

/-- Loop body of the channel scan in
`RRSMPeakMotionDataFormatter.extract_raw_stations`: take the channel if its
absolute PGA is within `[PGA_MIN, PGA_MAX]` (inclusive) and beats the best so
far (`best_pga` starts at `-inf`, modelled by `none`). -/
def extractChannelStep (acc : Option (PeakMotionChannel × ℚ)) (c : PeakMotionChannel) :
    Option (PeakMotionChannel × ℚ) :=
  let pga_val := pyAbs c.channel_pga
  let better : Bool := match acc with
    | none => true
    | some (_, best) => decide (best < pga_val)
  if decide (RRSM_PEAKMOTION_PGA_MIN ≤ pga_val) &&
     decide (pga_val ≤ RRSM_PEAKMOTION_PGA_MAX) && better then
    some (c, pga_val)
  else acc

/-- The channel selected by `extract_raw_stations` for one station. -/
def extractBestChannel (channels : List PeakMotionChannel) :
    Option (PeakMotionChannel × ℚ) :=
  channels.foldl extractChannelStep none

/-- Loop body of the channel scan in
`RRSMPeakMotionDataFormatter.format_data` (same range test, conjuncts in the
source order `better and >= MIN and <= MAX`). -/
def formatChannelStep (acc : Option (PeakMotionChannel × ℚ)) (c : PeakMotionChannel) :
    Option (PeakMotionChannel × ℚ) :=
  let channel_pga := pyAbs c.channel_pga
  let better : Bool := match acc with
    | none => true
    | some (_, best) => decide (best < channel_pga)
  if better && decide (RRSM_PEAKMOTION_PGA_MIN ≤ channel_pga) &&
     decide (channel_pga ≤ RRSM_PEAKMOTION_PGA_MAX) then
    some (c, channel_pga)
  else acc

/-- The channel selected by `format_data` for one station. -/
def formatBestChannel (channels : List PeakMotionChannel) :
    Option (PeakMotionChannel × ℚ) :=
  channels.foldl formatChannelStep none

/-- Outcome of the station classification in `format_data`. -/
inductive StationVerdict where
  | invalid : StationVerdict
  | valid (c : PeakMotionChannel) (pga : ℚ) : StationVerdict
deriving DecidableEq, Repr

/-- The station classification of `format_data`: no selected channel is
invalid, and a selected PGA equal to a range endpoint is ALSO discarded by
the `elif pga <= PGA_MIN or pga >= PGA_MAX` post-check. -/
def formatStationVerdict (channels : List PeakMotionChannel) : StationVerdict :=
  match formatBestChannel channels with
  | none => .invalid
  | some (c, pga) =>
    if pga ≤ RRSM_PEAKMOTION_PGA_MIN ∨ RRSM_PEAKMOTION_PGA_MAX ≤ pga then .invalid
    else .valid c pga

/-- C9 counterexample: a channel whose absolute PGA is exactly `PGA_MIN` is
selected by `extract_raw_stations` but DISCARDED by `format_data`'s
station-level post-check, refuting "accepted (not discarded) by the RRSM
station selection" for the `format_data` path. -/
theorem rrsm_boundary_counterexample :
    extractBestChannel [⟨"HNZ", RRSM_PEAKMOTION_PGA_MIN⟩] =
        some (⟨"HNZ", RRSM_PEAKMOTION_PGA_MIN⟩, RRSM_PEAKMOTION_PGA_MIN)
    ∧ formatStationVerdict [⟨"HNZ", RRSM_PEAKMOTION_PGA_MIN⟩] = .invalid := by
  constructor
  · norm_num [extractBestChannel, extractChannelStep, pyAbs,
      RRSM_PEAKMOTION_PGA_MIN, RRSM_PEAKMOTION_PGA_MAX]
  · norm_num [formatStationVerdict, formatBestChannel, formatChannelStep, pyAbs,
      RRSM_PEAKMOTION_PGA_MIN, RRSM_PEAKMOTION_PGA_MAX]

/-- C9 (amended). For a single-channel station: a PGA inside the closed range
is selected by `extract_raw_stations`; one strictly outside is rejected by
both paths; one exactly on a boundary is selected by `extract_raw_stations`
but discarded by `format_data`'s post-check; one strictly inside is kept
valid by `format_data`. -/
theorem rrsm_pga_range_amended (c : PeakMotionChannel) :
    (RRSM_PEAKMOTION_PGA_MIN ≤ pyAbs c.channel_pga ∧
        pyAbs c.channel_pga ≤ RRSM_PEAKMOTION_PGA_MAX →
      extractBestChannel [c] = some (c, pyAbs c.channel_pga))
    ∧ (pyAbs c.channel_pga < RRSM_PEAKMOTION_PGA_MIN ∨
        RRSM_PEAKMOTION_PGA_MAX < pyAbs c.channel_pga →
      extractBestChannel [c] = none ∧ formatStationVerdict [c] = .invalid)
    ∧ (pyAbs c.channel_pga = RRSM_PEAKMOTION_PGA_MIN ∨
        pyAbs c.channel_pga = RRSM_PEAKMOTION_PGA_MAX →
      formatStationVerdict [c] = .invalid)
    ∧ (RRSM_PEAKMOTION_PGA_MIN < pyAbs c.channel_pga ∧
        pyAbs c.channel_pga < RRSM_PEAKMOTION_PGA_MAX →
      formatStationVerdict [c] = .valid c (pyAbs c.channel_pga)) := by
  refine ⟨?_, ?_, ?_, ?_⟩
  · rintro ⟨h1, h2⟩
    simp [extractBestChannel, extractChannelStep, h1, h2]
  · intro h
    have hout : ¬ (RRSM_PEAKMOTION_PGA_MIN ≤ pyAbs c.channel_pga ∧
        pyAbs c.channel_pga ≤ RRSM_PEAKMOTION_PGA_MAX) := by
      rcases h with h | h
      · exact fun h2 => absurd h2.1 (not_le.mpr h)
      · exact fun h2 => absurd h2.2 (not_le.mpr h)
    constructor
    · rcases not_and_or.mp hout with h2 | h2 <;>
        simp [extractBestChannel, extractChannelStep, h2]
    · rcases not_and_or.mp hout with h2 | h2 <;>
        simp [formatStationVerdict, formatBestChannel, formatChannelStep, h2]
  · intro h
    have hminmax : RRSM_PEAKMOTION_PGA_MIN ≤ RRSM_PEAKMOTION_PGA_MAX := by
      norm_num [RRSM_PEAKMOTION_PGA_MIN, RRSM_PEAKMOTION_PGA_MAX]
    rcases h with h | h
    · have h1 : RRSM_PEAKMOTION_PGA_MIN ≤ pyAbs c.channel_pga := le_of_eq h.symm
      have h2 : pyAbs c.channel_pga ≤ RRSM_PEAKMOTION_PGA_MAX :=
        (le_of_eq h).trans hminmax
      have hcase : pyAbs c.channel_pga ≤ RRSM_PEAKMOTION_PGA_MIN ∨
          RRSM_PEAKMOTION_PGA_MAX ≤ pyAbs c.channel_pga := Or.inl (le_of_eq h)
      simp [formatStationVerdict, formatBestChannel, formatChannelStep, h1, h2, hcase]
    · have h1 : RRSM_PEAKMOTION_PGA_MIN ≤ pyAbs c.channel_pga :=
        hminmax.trans_eq h.symm
      have h2 : pyAbs c.channel_pga ≤ RRSM_PEAKMOTION_PGA_MAX := le_of_eq h
      have hcase : pyAbs c.channel_pga ≤ RRSM_PEAKMOTION_PGA_MIN ∨
          RRSM_PEAKMOTION_PGA_MAX ≤ pyAbs c.channel_pga := Or.inr (le_of_eq h.symm)
      simp [formatStationVerdict, formatBestChannel, formatChannelStep, h1, h2, hcase]
  · rintro ⟨h1, h2⟩
    have h1le := le_of_lt h1
    have h2le := le_of_lt h2
    simp [formatStationVerdict, formatBestChannel, formatChannelStep, h1le, h2le,
      not_le.mpr h1, not_le.mpr h2]

/-- Witness for C9 at a concrete in-range channel (PGA 5 m/s/s). -/
theorem rrsm_pga_range_witness :
    extractBestChannel [⟨"HNZ", 5⟩] = some (⟨"HNZ", 5⟩, pyAbs 5) :=
  (rrsm_pga_range_amended ⟨"HNZ", 5⟩).1
    (by norm_num [pyAbs, RRSM_PEAKMOTION_PGA_MIN, RRSM_PEAKMOTION_PGA_MAX])

/-! ## RRSM query policy (`services/querypolicy.py`) -/

/-- Schedule `RRSMQueryPolicy.QUERY_SCHEDULE_MINUTES`: scheduled delays in minutes. -/
def QUERY_SCHEDULE_MINUTES : List ℚ := [0, 5, 15, 60, 180, 360, 1440, 2880]

/-- Constant `RRSMQueryPolicy.ALLOWED_DRIFT_MINUTES`. -/
def ALLOWED_DRIFT_MINUTES : ℚ := 1

/-- Function `RRSMQueryPolicy.should_query`, as a function of the elapsed minutes
`now - origin_time` (the datetime subtraction is abstracted to its rational
result).  Returns the `(bool, reason)` pair of the source. -/
def should_query (elapsed : ℚ) : Bool × String :=
  if elapsed < 0 then (false, "Negative elapsed time")
  else if pyMax QUERY_SCHEDULE_MINUTES + 15 < elapsed then
    (false, "Expired beyond allowed time + drift")
  else if QUERY_SCHEDULE_MINUTES.any
      (fun scheduled => decide (pyAbs (elapsed - scheduled) ≤ ALLOWED_DRIFT_MINUTES)) then
    (true, "Within allowed drift")
  else (false, "Not within allowed drift")

/-- C2 counterexample: at elapsed time -1/2 minutes there is a scheduled
delay (0) within the drift tolerance and the elapsed time is below
max+grace, yet `should_query` returns false (its negative-elapsed guard),
refuting the claimed iff. -/
theorem should_query_negative_counterexample :
    (should_query (-(1/2))).1 = false
    ∧ (∃ d ∈ QUERY_SCHEDULE_MINUTES, pyAbs (-(1/2) - d) ≤ ALLOWED_DRIFT_MINUTES)
    ∧ ((-(1/2) : ℚ) ≤ 2880 + 15) := by
  refine ⟨?_, ⟨0, ?_, ?_⟩, ?_⟩
  · have hneg : ((-(1/2) : ℚ) < 0) := by norm_num
    simp [should_query, hneg]
  · simp [QUERY_SCHEDULE_MINUTES]
  · norm_num [pyAbs, ALLOWED_DRIFT_MINUTES]
  · norm_num

/-- C2 (amended). `should_query` returns true iff the elapsed time is
nonnegative, at most `max(delays) + 15`, and within the drift tolerance of
some scheduled delay.  (The claim as stated omits the nonnegativity guard.) -/
theorem should_query_amended (t : ℚ) :
    (should_query t).1 = true ↔
      0 ≤ t ∧ t ≤ 2880 + 15 ∧
        ∃ d ∈ QUERY_SCHEDULE_MINUTES, pyAbs (t - d) ≤ ALLOWED_DRIFT_MINUTES := by
  have hmax : pyMax QUERY_SCHEDULE_MINUTES = 2880 := by
    norm_num [pyMax, QUERY_SCHEDULE_MINUTES]
  unfold should_query
  rw [hmax]
  split_ifs with h1 h2 h3
  · constructor
    · intro hc; simp at hc
    · rintro ⟨h0, -, -⟩; exact absurd h1 (not_lt.mpr h0)
  · constructor
    · intro hc; simp at hc
    · rintro ⟨-, hle, -⟩
      exact absurd h2 (not_lt.mpr (by linarith))
  · constructor
    · intro _
      refine ⟨not_lt.mp h1, by linarith [not_lt.mp h2], ?_⟩
      obtain ⟨d, hd, hdp⟩ := List.any_eq_true.mp h3
      exact ⟨d, hd, of_decide_eq_true hdp⟩
    · intro _; rfl
  · constructor
    · intro hc; simp at hc
    · rintro ⟨-, -, d, hd, hdle⟩
      exact absurd (List.any_eq_true.mpr ⟨d, hd, decide_eq_true hdle⟩) h3

/-- Witness for C2 at elapsed time 5 minutes (a scheduled delay). -/
theorem should_query_amended_witness : (should_query 5).1 = true :=
  (should_query_amended 5).mpr
    ⟨by norm_num, by norm_num,
     5, by simp [QUERY_SCHEDULE_MINUTES], by norm_num [pyAbs, ALLOWED_DRIFT_MINUTES]⟩

/-! ## Event store (`services/database.py`) and tracker (`services/eventtracker.py`)

The `event_tracker` table row (all SQLite columns are dynamically typed,
hence `PyVal` fields).  The store state also records whether a truthy logger
has been attached via `set_logger`. -/

/-- One row of the `event_tracker` table, columns as in `_create_table`. -/
structure EventRow where
  event_id : PyVal
  service : PyVal
  status : PyVal
  origin_time : PyVal
  last_update_time : PyVal
  last_query_time : PyVal
  next_query_time : PyVal
  current_delay_time : PyVal
  next_delay_time : PyVal
  retry_count : PyVal
  expiration_time : PyVal
  priority : PyVal
  last_error : PyVal
  last_data_hash : PyVal
  last_data_snapshot : PyVal
  emsc_alert_json : PyVal
  last_modified : PyVal
deriving DecidableEq, Repr

/-- The `ThreadSafeDB` state: the table contents in insertion order, and
whether a truthy logger object is attached (`set_logger`). -/
structure ThreadSafeDB where
  table : List EventRow
  logger : Bool
deriving DecidableEq, Repr

/-- SQL equality on column values: comparisons with NULL are never true
(in particular two NULLs do not match, so a NULL key column never
conflicts). -/
def sqlEq (a b : PyVal) : Bool :=
  match a, b with
  | .none, _ => false
  | _, .none => false
  | x, y => decide (x = y)

/-- Modelled from the spec: the status constants `STATUS_PENDING` etc. that
`eventtracker.py` and `scheduler.py` import from `services.database` are
absent from the database.py snapshot; the spec states are
PENDING/PROCESSING/COMPLETED/INCOMPLETE and database.py itself writes the
strings "Pending" and "Completed". -/
def STATUS_PENDING : String := "Pending"

/-- Modelled from the spec: see `STATUS_PENDING`. -/
def STATUS_PROCESSING : String := "Processing"

/-- Modelled from the spec: see `STATUS_PENDING`. -/
def STATUS_COMPLETED : String := "Completed"

/-- Modelled from the spec: see `STATUS_PENDING`. -/
def STATUS_INCOMPLETE : String := "Incomplete"

/-- The row built by one `INSERT OR IGNORE` of `ThreadSafeDB.add_event`:
status "Pending", `next_query_time or now`, retry 0, defaults for the
unlisted columns (priority 1, last_modified from the column default). -/
def newEventRow (event_id service origin_time last_update_time : String)
    (current_delay_time next_delay_time emsc_alert_json next_query_time : PyVal)
    (now_iso expiration_iso : String) : EventRow :=
  { event_id := .str event_id
    service := .str service
    status := .str "Pending"
    origin_time := .str origin_time
    last_update_time := .str last_update_time
    last_query_time := .none
    next_query_time := if pyTruthy next_query_time then next_query_time else .str now_iso
    current_delay_time := current_delay_time
    next_delay_time := next_delay_time
    retry_count := .int 0
    expiration_time := .str expiration_iso
    priority := .int 1
    last_error := .none
    last_data_hash := .none
    last_data_snapshot := .none
    emsc_alert_json := emsc_alert_json
    last_modified := .str now_iso }

/-- Function `ThreadSafeDB.add_event`: for each service, `INSERT OR IGNORE` a row
keyed by `(event_id, service, current_delay_time)`; on a primary-key
conflict (rowcount 0) the table is untouched and a warning is emitted iff a
logger is attached (`hasattr(self, "logger") and self.logger`).  The list of
emitted log messages is returned with the new state; the function is total
(no exception can reach the caller).  `now_iso`/`expiration_iso` stand for
the wall-clock strings the Python computes. -/
def ThreadSafeDB.add_event (db : ThreadSafeDB) (event_id : String)
    (services : List String) (origin_time last_update_time : String)
    (current_delay_time next_delay_time emsc_alert_json next_query_time : PyVal)
    (now_iso expiration_iso : String) : ThreadSafeDB × List String :=
  services.foldl (fun acc service =>
    let db2 := acc.1
    let conflict := db2.table.any (fun r =>
      sqlEq r.event_id (.str event_id) && sqlEq r.service (.str service) &&
        sqlEq r.current_delay_time current_delay_time)
    if conflict then
      (db2, acc.2 ++ (if db2.logger then
        ["Suppressed duplicate event insert: event_id=" ++ event_id ++
          ", service=" ++ service] else []))
    else
      ({ db2 with table := db2.table ++ [newEventRow event_id service origin_time
        last_update_time current_delay_time next_delay_time emsc_alert_json
        next_query_time now_iso expiration_iso] }, acc.2))
    (db, ([] : List String))

/-- The constant part of the `fetch_due_events` SQL text. -/
def FETCH_DUE_BASE_QUERY : String :=
  "SELECT event_id, service FROM event_tracker WHERE next_query_time <= ? AND status IN (\"Pending\")"

/-- The service filter appended when a service is given. -/
def FETCH_DUE_SERVICE_FILTER : String := " AND service = ?"

/-- The ordering / limit tail appended unconditionally (note the `LIMIT ?`
placeholder). -/
def FETCH_DUE_ORDER_SUFFIX : String :=
  " ORDER BY priority DESC, next_query_time ASC LIMIT ?"

/-- The SQL text `fetch_due_events` builds. -/
def fetch_due_query (service : Option String) : String :=
  FETCH_DUE_BASE_QUERY ++
    (if service.isSome then FETCH_DUE_SERVICE_FILTER else "") ++
    FETCH_DUE_ORDER_SUFFIX

/-- The parameter list `fetch_due_events` binds (`[now]`, plus the service
when given; nothing is ever appended for `LIMIT ?`). -/
def fetch_due_params (now : String) (service : Option String) : List String :=
  [now] ++ (match service with | some s => [s] | none => [])

/-- Number of `?` placeholders in a SQL text. -/
def countPlaceholders (q : String) : ℕ := q.toList.count '?'

/-- TEXT-column comparison `next_query_time <= ?`: string order on TEXT,
never true against NULL (SQL three-valued logic drops the row). -/
def sqlTextLe (v : PyVal) (now : String) : Bool :=
  match v with
  | .str s => decide (s ≤ now)
  | _ => false

/-- Numeric view of a column for the `priority DESC` sort key (priority is
an INTEGER column). -/
def pyValToRat : PyVal → ℚ
  | .int n => (n : ℚ)
  | .real q => q
  | .bool b => if b then 1 else 0
  | _ => 0

/-- The `ORDER BY priority DESC, next_query_time ASC` ordering. -/
def dueOrder (a b : EventRow) : Prop :=
  pyValToRat b.priority < pyValToRat a.priority ∨
    (pyValToRat b.priority = pyValToRat a.priority ∧
      sqlTextLe a.next_query_time (match b.next_query_time with
        | .str s => s | _ => "") = true)

instance : DecidableRel dueOrder :=
  fun _ _ => inferInstanceAs (Decidable (_ ∨ _))

/-- The WHERE clause of `fetch_due_events`. -/
def fetchDuePred (now : String) (service : Option String) (r : EventRow) : Bool :=
  sqlTextLe r.next_query_time now && decide (r.status = .str "Pending") &&
    (match service with | some s => decide (r.service = .str s) | none => true)

/-- The result set the `fetch_due_events` SELECT would produce (were its
bindings complete): matching rows ordered by the ORDER BY clause, projected
to `(event_id, service)`. -/
def fetch_due_select (db : ThreadSafeDB) (now : String) (service : Option String) :
    List (PyVal × PyVal) :=
  (List.insertionSort dueOrder (db.table.filter (fetchDuePred now service))).map
    (fun r => (r.event_id, r.service))

/-- Function `ThreadSafeDB.fetch_due_events`: builds the SQL with a trailing
`LIMIT ?` but binds only `[now]` (and the optional service), so sqlite3
raises `ProgrammingError` (incorrect number of bindings) before any row is
returned. -/
def ThreadSafeDB.fetch_due_events (db : ThreadSafeDB) (now : String)
    (service : Option String) : Except PyErr (List (PyVal × PyVal)) :=
  if countPlaceholders (fetch_due_query service) = (fetch_due_params now service).length
  then .ok (fetch_due_select db now service)
  else .error (.programmingError "Incorrect number of bindings supplied.")

/-- C1. Every call to `fetch_due_events` raises `sqlite3.ProgrammingError`:
the SQL ends in `LIMIT ?` yet no limit value is ever bound (2 placeholders
with 1 parameter, or 3 with 2 when a service filter is given), so the call
never returns the due rows. -/
theorem fetch_due_events_always_raises (db : ThreadSafeDB) (now : String)
    (service : Option String) :
    ThreadSafeDB.fetch_due_events db now service =
      .error (.programmingError "Incorrect number of bindings supplied.") := by
  cases service with
  | none =>
    have hc : countPlaceholders (fetch_due_query Option.none) = 2 := by decide
    have hp : (fetch_due_params now Option.none).length = 1 := rfl
    unfold ThreadSafeDB.fetch_due_events
    rw [hc, hp]
    norm_num
  | some s =>
    have hq : fetch_due_query (some s) =
        FETCH_DUE_BASE_QUERY ++ FETCH_DUE_SERVICE_FILTER ++ FETCH_DUE_ORDER_SUFFIX := rfl
    have hc : countPlaceholders
        (FETCH_DUE_BASE_QUERY ++ FETCH_DUE_SERVICE_FILTER ++ FETCH_DUE_ORDER_SUFFIX) = 3 := by
      decide
    have hp : (fetch_due_params now (some s)).length = 2 := rfl
    unfold ThreadSafeDB.fetch_due_events
    rw [hq, hc, hp]
    norm_num

/-- C7 (amended). A duplicate insert (a row with an SQL-equal composite key,
hence a non-NULL delay, already present) leaves the table unchanged and
raises nothing; the duplicate warning is emitted iff a logger is attached. -/
theorem add_event_duplicate_soft (db : ThreadSafeDB) (r : EventRow)
    (event_id service origin_time last_update_time : String)
    (current_delay_time next_delay_time emsc_alert_json next_query_time : PyVal)
    (now_iso expiration_iso : String)
    (hr : r ∈ db.table)
    (h1 : sqlEq r.event_id (.str event_id) = true)
    (h2 : sqlEq r.service (.str service) = true)
    (h3 : sqlEq r.current_delay_time current_delay_time = true) :
    (ThreadSafeDB.add_event db event_id [service] origin_time last_update_time
        current_delay_time next_delay_time emsc_alert_json next_query_time
        now_iso expiration_iso).1 = db
    ∧ (ThreadSafeDB.add_event db event_id [service] origin_time last_update_time
        current_delay_time next_delay_time emsc_alert_json next_query_time
        now_iso expiration_iso).2 =
      (if db.logger then
        ["Suppressed duplicate event insert: event_id=" ++ event_id ++
          ", service=" ++ service] else []) := by
  have hex : ∃ x ∈ db.table,
      (sqlEq x.event_id (.str event_id) = true ∧ sqlEq x.service (.str service) = true) ∧
        sqlEq x.current_delay_time current_delay_time = true :=
    ⟨r, hr, ⟨h1, h2⟩, h3⟩
  constructor
  · simp [ThreadSafeDB.add_event, hex]
  · simp [ThreadSafeDB.add_event, hex]

/-- A concrete pending row for the tracker scenarios (event ev1, service
RRSM, delay stage 0). -/
def sampleRow : EventRow :=
  newEventRow "ev1" "RRSM" "2025-01-01T00:00:00+00:00" "2025-01-01T00:05:00+00:00"
    (.real 0) (.real 5) .none .none
    "2025-01-01T00:05:00+00:00" "2025-01-06T00:05:00+00:00"

/-- A store holding `sampleRow`, with no logger attached (the default: the
`EventTracker` constructor never calls `set_logger`). -/
def sampleDB : ThreadSafeDB := ⟨[sampleRow], false⟩

/-- The same store with a truthy logger attached. -/
def sampleDBLogged : ThreadSafeDB := ⟨[sampleRow], true⟩

/-- C7 counterexample: with no logger attached (the state any
`EventTracker(db_path)` starts in), a duplicate insert is skipped but logs
NOTHING, refuting the claim that a warning is logged on every duplicate
insert. -/
theorem add_event_duplicate_no_warning_counterexample :
    (ThreadSafeDB.add_event sampleDB "ev1" ["RRSM"] "2025-01-01T00:00:00+00:00"
        "2025-01-02T00:00:00+00:00" (.real 0) (.real 5) .none .none
        "2025-01-02T00:00:00+00:00" "2025-01-07T00:00:00+00:00").2 = []
    ∧ (ThreadSafeDB.add_event sampleDB "ev1" ["RRSM"] "2025-01-01T00:00:00+00:00"
        "2025-01-02T00:00:00+00:00" (.real 0) (.real 5) .none .none
        "2025-01-02T00:00:00+00:00" "2025-01-07T00:00:00+00:00").1 = sampleDB := by
  constructor <;> rfl

/-- Witness for C7 at the concrete logged store. -/
theorem add_event_duplicate_soft_witness :
    (ThreadSafeDB.add_event sampleDBLogged "ev1" ["RRSM"] "2025-01-01T00:00:00+00:00"
        "2025-01-02T00:00:00+00:00" (.real 0) (.real 5) .none .none
        "2025-01-02T00:00:00+00:00" "2025-01-07T00:00:00+00:00").1 = sampleDBLogged
    ∧ (ThreadSafeDB.add_event sampleDBLogged "ev1" ["RRSM"] "2025-01-01T00:00:00+00:00"
        "2025-01-02T00:00:00+00:00" (.real 0) (.real 5) .none .none
        "2025-01-02T00:00:00+00:00" "2025-01-07T00:00:00+00:00").2 =
      (if sampleDBLogged.logger then
        ["Suppressed duplicate event insert: event_id=" ++ "ev1" ++
          ", service=" ++ "RRSM"] else []) :=
  add_event_duplicate_soft sampleDBLogged sampleRow "ev1" "RRSM"
    "2025-01-01T00:00:00+00:00" "2025-01-02T00:00:00+00:00"
    (.real 0) (.real 5) .none .none
    "2025-01-02T00:00:00+00:00" "2025-01-07T00:00:00+00:00"
    (List.mem_singleton.mpr rfl) rfl rfl rfl

/-- Assign one named column of a row (the SET clause of
`_update_event_fields`; callers only pass schema column names, so unknown
names fall through unchanged). -/
def setRowField (r : EventRow) (key : String) (v : PyVal) : EventRow :=
  if key = "event_id" then { r with event_id := v }
  else if key = "service" then { r with service := v }
  else if key = "status" then { r with status := v }
  else if key = "origin_time" then { r with origin_time := v }
  else if key = "last_update_time" then { r with last_update_time := v }
  else if key = "last_query_time" then { r with last_query_time := v }
  else if key = "next_query_time" then { r with next_query_time := v }
  else if key = "current_delay_time" then { r with current_delay_time := v }
  else if key = "next_delay_time" then { r with next_delay_time := v }
  else if key = "retry_count" then { r with retry_count := v }
  else if key = "expiration_time" then { r with expiration_time := v }
  else if key = "priority" then { r with priority := v }
  else if key = "last_error" then { r with last_error := v }
  else if key = "last_data_hash" then { r with last_data_hash := v }
  else if key = "last_data_snapshot" then { r with last_data_snapshot := v }
  else if key = "emsc_alert_json" then { r with emsc_alert_json := v }
  else if key = "last_modified" then { r with last_modified := v }
  else r

/-- Apply all keyword fields of an update to a row. -/
def applyFields (r : EventRow) (kwargs : List (String × PyVal)) : EventRow :=
  kwargs.foldl (fun r2 p => setRowField r2 p.1 p.2) r

/-- Function `ThreadSafeDB._update_event_fields(self, event_id, service, **kwargs)`,
with the Python call convention made explicit: the caller's positional
arguments are passed as a list.  The def accepts exactly two positional
arguments; any other arity is the Python `TypeError` raised at call time.
With two, it updates every row matching `event_id = ? AND service = ?`
(the WHERE clause has no delay condition) and does nothing on an empty
update set. -/
def ThreadSafeDB.update_event_fields_call (db : ThreadSafeDB)
    (positional : List PyVal) (kwargs : List (String × PyVal)) :
    Except PyErr ThreadSafeDB :=
  match positional with
  | [event_id, service] =>
    if kwargs.isEmpty then .ok db
    else .ok { db with table := db.table.map (fun r =>
      if sqlEq r.event_id event_id && sqlEq r.service service then
        applyFields r kwargs
      else r) }
  | _ => .error (.typeError
      "ThreadSafeDB._update_event_fields takes 3 positional arguments but 4 were given")

/-- Function `EventTracker._db_update_event_fields(event_id, service,
current_delay_time, **fields)`: forwards THREE positional arguments to
`ThreadSafeDB._update_event_fields`, which accepts only two. -/
def EventTracker.db_update_event_fields (db : ThreadSafeDB)
    (event_id service current_delay_time : PyVal)
    (fields : List (String × PyVal)) : Except PyErr ThreadSafeDB :=
  ThreadSafeDB.update_event_fields_call db [event_id, service, current_delay_time] fields

/-- Modelled from the spec: `ThreadSafeDB.get_all_pending_events` is missing
from the database.py snapshot (only its EventTracker caller exists); the
caller's docstring reads "Retrieve all pending or failed events across all
services". -/
def ThreadSafeDB.get_all_pending_events (db : ThreadSafeDB) : List EventRow :=
  db.table.filter (fun r =>
    decide (r.status = .str STATUS_PENDING) || decide (r.status = .str STATUS_INCOMPLETE))

/-- Function `EventTracker.refresh_metadata_after_emsc_update`: build the metadata
update set (origin time and alert JSON only when truthy), then for every
non-completed row of the `(event_id, service)` series call
`_db_update_event_fields` with the row's delay as a third positional
argument. -/
def EventTracker.refresh_metadata_after_emsc_update (db : ThreadSafeDB)
    (event_id service new_last_update_time : String)
    (origin_time emsc_alert_json : PyVal) (now_iso : String) :
    Except PyErr ThreadSafeDB :=
  let fields_to_update :=
    [("last_update_time", PyVal.str new_last_update_time),
     ("last_modified", PyVal.str now_iso)]
    ++ (if pyTruthy origin_time then [("origin_time", origin_time)] else [])
    ++ (if pyTruthy emsc_alert_json then [("emsc_alert_json", emsc_alert_json)] else [])
  let all_rows := ThreadSafeDB.get_all_pending_events db
  (all_rows.filter (fun meta =>
      decide (meta.event_id = .str event_id) && decide (meta.service = .str service))).foldlM
    (fun db2 meta => EventTracker.db_update_event_fields db2 (.str event_id)
      (.str service) meta.current_delay_time fields_to_update) db

/-- C6. Refreshing metadata after an EMSC update never updates anything: as
soon as the series has a non-terminal (pending) row, the tracker passes the
row's delay as a third positional argument to
`ThreadSafeDB._update_event_fields`, which accepts only two, so the call
raises `TypeError` and the stale `last_update_time` survives. -/
theorem refresh_metadata_after_emsc_update_raises :
    EventTracker.refresh_metadata_after_emsc_update sampleDB "ev1" "RRSM"
        "2025-01-02T00:00:00+00:00" .none .none "2025-01-02T00:00:00+00:00"
      = .error (.typeError
          "ThreadSafeDB._update_event_fields takes 3 positional arguments but 4 were given")
    ∧ sampleRow.last_update_time = .str "2025-01-01T00:05:00+00:00"
    ∧ sampleRow.last_update_time ≠ .str "2025-01-02T00:00:00+00:00" := by
  refine ⟨rfl, rfl, by decide⟩

/-- Function `ThreadSafeDB.get_event_meta(self, event_id, service)` with the Python
call convention explicit: two positional arguments select the first row of
the `(event_id, service)` pair; any other arity is a `TypeError`. -/
def ThreadSafeDB.get_event_meta_call (db : ThreadSafeDB) (positional : List PyVal) :
    Except PyErr (Option EventRow) :=
  match positional with
  | [event_id, service] =>
    .ok (db.table.find? (fun r => sqlEq r.event_id event_id && sqlEq r.service service))
  | _ => .error (.typeError
      "ThreadSafeDB.get_event_meta takes 3 positional arguments but 4 were given")

/-- Function `EventTracker.increment_retry_count`: look up the row (passing the delay
as a third positional argument), silently return when no metadata is found,
else write back `retry_count + 1`. -/
def EventTracker.increment_retry_count (db : ThreadSafeDB)
    (event_id service : String) (current_delay_time : PyVal) :
    Except PyErr ThreadSafeDB :=
  match ThreadSafeDB.get_event_meta_call db [.str event_id, .str service, current_delay_time] with
  | .error e => .error e
  | .ok Option.none => .ok db
  | .ok (some meta) =>
    let retry := (match meta.retry_count with | .int n => n | _ => 0) + 1
    EventTracker.db_update_event_fields db (.str event_id) (.str service)
      current_delay_time [("retry_count", .int retry)]

/-- The empty store. -/
def emptyDB : ThreadSafeDB := ⟨[], false⟩

/-- C10. Incrementing the retry count of a missing row does not return
silently: the tracker passes three positional arguments to
`ThreadSafeDB.get_event_meta`, which accepts two, so every call (missing
row or not) raises `TypeError` before the missing-row check is reached. -/
theorem increment_retry_count_missing_row_raises :
    EventTracker.increment_retry_count emptyDB "ev1" "RRSM" (.real 0)
      = .error (.typeError
          "ThreadSafeDB.get_event_meta takes 3 positional arguments but 4 were given") := rfl

/-! ## FinDer executable runner (`finderexec.py`) -/

/-- The local conversion inside `FinDerExecutable._is_live_mode_on`: a
string config value is mapped through yes/no/truthiness, other values are
kept. -/
def liveModeLocalFlag (v : PyVal) : PyVal :=
  match v with
  | .str s => if s.toLower = "yes" then .bool true
              else if s.toLower = "no" then .bool false
              else .bool (pyTruthy (.str s))
  | w => w

/-- Function `FinDerExecutable._is_live_mode_on`: computes the local flag and logs
it, but has NO return statement, so every call returns Python `None`. -/
def FinDerExecutable.is_live_mode_on (v : PyVal) : PyVal :=
  let _ := liveModeLocalFlag v
  PyVal.none

/-- The argv `FinDerExecutable._run_finder` passes to `subprocess.Popen`:
executable, config path, working directory, "0", "0", then
`'yes' if is_live_mode else 'no'` on the value `_is_live_mode_on` returned. -/
def FinDerExecutable.run_finder_cmd (executable_path finder_file_config_path
    working_directory : String) (live_cfg : PyVal) : List String :=
  [executable_path, finder_file_config_path, working_directory, "0", "0",
   if pyTruthy (FinDerExecutable.is_live_mode_on live_cfg) then "yes" else "no"]

/-- C8. Whatever the configured live mode (including `True`), the trailing
argv flag is always "no": `_is_live_mode_on` falls off its end and returns
`None`, which is falsy. -/
theorem run_finder_flag_always_no (executable_path config_path working_dir : String)
    (live_cfg : PyVal) :
    FinDerExecutable.run_finder_cmd executable_path config_path working_dir live_cfg
      = [executable_path, config_path, working_dir, "0", "0", "no"] := rfl
